import Mathlib

/-!
Shallow embedding of the final snapshot of `src/cmd/http_server/main.go`
(`initDB`, the `POST /orders` and `PATCH /orders/priority` handlers, and the
`pollForPriorityChanges` worker) as pure functions over an explicit durable
database state, with fault-injection parameters for the failure points the
Go code checks (`err != nil` branches).  Theorems below settle the claims of
the specification against this embedding.

Modelling notes, each traceable to the source:
* `orders`, `priority_changes` and `polling_state` are the three tables
  created by `initDB`; `polling_state` holds at most the single row with
  `id = 1`, modelled as `Option Nat` (`none` = row absent).
* SQLite autoincrement ids are modelled as `1 + max existing id`.
* The Go driver does not enable SQLite foreign-key enforcement (the DSN is
  plain `./orders.db`), so the `FOREIGN KEY(order_id)` clause in the schema
  is declarative only: the event insert succeeds even when no order with
  that id exists.  The embedding therefore lets `insertPriorityChange`
  succeed unconditionally.
* In `pollForPriorityChanges`, a scan or update error for one row only
  `continue`s the inner `rows.Next()` loop; the cycle still commits.  A
  begin/read/query error `continue`s the outer loop before any mutation,
  and a commit error leaves no durable mutation; both appear here as the
  cycle returning the pre-cycle state unchanged.
-/

namespace PollingAudit

/-- A row of the `orders` table (struct `Order` plus its `id` column). -/
structure Order where
  id : Nat
  customerName : String
  productName : String
  quantity : Nat
  shippingAddress : String
  priority : String
  deriving Repr, DecidableEq

/-- A row of the `priority_changes` table. -/
structure PriorityChangeEvent where
  id : Nat
  orderId : Nat
  priority : String
  processed : Bool
  deriving Repr, DecidableEq

/-- Durable database state: existence flags for the three tables created by
`initDB`, their rows, and the singleton `polling_state` row (`none` when the
row with `id = 1` is absent). -/
structure DBState where
  ordersTableExists : Bool
  priorityChangesTableExists : Bool
  pollingStateTableExists : Bool
  orders : List Order
  priorityChanges : List PriorityChangeEvent
  pollingRow : Option Nat
  deriving Repr, DecidableEq

/-- `initDB`: three `CREATE TABLE IF NOT EXISTS` statements (which never touch
rows of an existing table) followed by
`INSERT OR IGNORE INTO polling_state (id, last_processed_id) VALUES (1, 0)`,
which inserts the watermark row only when it is absent. -/
def initDB (s : DBState) : DBState :=
  { s with
    ordersTableExists := true
    priorityChangesTableExists := true
    pollingStateTableExists := true
    pollingRow := match s.pollingRow with
      | none => some 0
      | some w => some w }

/-- Autoincrement id for a new `orders` row. -/
def nextOrderId (s : DBState) : Nat :=
  (s.orders.foldl (fun m o => max m o.id) 0) + 1

/-- `POST /orders` handler: single `INSERT INTO orders`, returning the new id. -/
def createOrder (s : DBState) (customerName productName : String) (quantity : Nat)
    (shippingAddress priority : String) : DBState × Nat :=
  let newId := nextOrderId s
  ({ s with
      orders := s.orders ++
        [{ id := newId, customerName := customerName, productName := productName,
           quantity := quantity, shippingAddress := shippingAddress,
           priority := priority }] },
   newId)

/-- Failure points of the `PATCH /orders/priority` handler, one per
`err != nil` branch in its transaction. -/
structure EscalateFaults where
  beginFail : Bool := false
  stmtUpdateFail : Bool := false
  updateFail : Bool := false
  stmtInsertFail : Bool := false
  insertFail : Bool := false
  commitFail : Bool := false
  deriving Repr, DecidableEq

/-- A fault-free escalation request. -/
def noEscalateFaults : EscalateFaults := {}

/-- Autoincrement id for a new `priority_changes` row. -/
def nextEventId (s : DBState) : Nat :=
  (s.priorityChanges.foldl (fun m e => max m e.id) 0) + 1

/-- `UPDATE orders SET priority = 'high' WHERE id = ?` (no rows-affected
check: a nonexistent id simply updates nothing). -/
def setPriorityHigh (s : DBState) (orderID : Nat) : DBState :=
  { s with
    orders := s.orders.map (fun o =>
      if o.id == orderID then { o with priority := "high" } else o) }

/-- `INSERT INTO priority_changes (order_id, priority) VALUES (?, 'high')`;
`processed` defaults to `FALSE`.  Foreign keys are not enforced (see module
comment), so this succeeds for any `orderID`. -/
def insertPriorityChange (s : DBState) (orderID : Nat) : DBState :=
  { s with
    priorityChanges := s.priorityChanges ++
      [{ id := nextEventId s, orderId := orderID, priority := "high",
         processed := false }] }

/-- Transaction body of the `PATCH /orders/priority` handler.  On any failure
the handler returns after `defer tx.Rollback()` fires, so the durable state
is unchanged: the caller keeps `s` and sees an explicit error. -/
def escalateOrderPriority (f : EscalateFaults) (s : DBState) (orderID : Nat) :
    Except Unit DBState :=
  if f.beginFail then .error ()
  else if f.stmtUpdateFail then .error ()
  else if f.updateFail then .error ()
  else
    let tx1 := setPriorityHigh s orderID
    if f.stmtInsertFail then .error ()
    else if f.insertFail then .error ()
    else
      let tx2 := insertPriorityChange tx1 orderID
      if f.commitFail then .error () else .ok tx2

/-- Failure points of one `pollForPriorityChanges` cycle, one per
`err != nil` branch; scan and update failures are per event id, matching the
per-row `continue` in the Go loop. -/
structure CycleFaults where
  beginFail : Bool := false
  readWatermarkFail : Bool := false
  queryFail : Bool := false
  scanFail : Nat → Bool := fun _ => false
  updateFail : Nat → Bool := fun _ => false
  watermarkUpdateFail : Bool := false
  commitFail : Bool := false

/-- A fault-free poller cycle. -/
def noCycleFaults : CycleFaults := {}

/-- The `JOIN orders o ON pc.order_id = o.id WHERE o.product_name = 'ninja'`
condition: the event's referenced order exists and its product is `ninja`. -/
def matchesFilter (s : DBState) (e : PriorityChangeEvent) : Bool :=
  s.orders.any (fun o => o.id == e.orderId && o.productName == "ninja")

/-- Comparison used for `ORDER BY pc.id ASC`. -/
def eventLE (a b : PriorityChangeEvent) : Prop := a.id ≤ b.id

instance : DecidableRel eventLE := fun a b => Nat.decLe a.id b.id

instance : IsTotal PriorityChangeEvent eventLE := ⟨fun a b => Nat.le_total a.id b.id⟩

instance : IsTrans PriorityChangeEvent eventLE := ⟨fun _ _ _ h h' => Nat.le_trans h h'⟩

/-- The poller's row query: events matching the filter with `pc.id > lastID`
and `pc.processed = FALSE`, ordered ascending by id. -/
def selectedEvents (s : DBState) (lastID : Nat) : List PriorityChangeEvent :=
  List.insertionSort eventLE
    (s.priorityChanges.filter (fun e =>
      matchesFilter s e && decide (lastID < e.id) && !e.processed))

/-- `UPDATE priority_changes SET processed = TRUE WHERE id = ?`. -/
def markProcessed (s : DBState) (i : Nat) : DBState :=
  { s with
    priorityChanges := s.priorityChanges.map (fun e =>
      if e.id == i then { e with processed := true } else e) }

/-- The `rows.Next()` loop: a scan or update failure skips the row (inner
`continue`); a successful update records the row's id in `maxID`. -/
def rowLoop (f : CycleFaults) (tx : DBState) (rows : List PriorityChangeEvent)
    (maxID : Nat) : DBState × Nat :=
  match rows with
  | [] => (tx, maxID)
  | e :: rest =>
    if f.scanFail e.id then rowLoop f tx rest maxID
    else if f.updateFail e.id then rowLoop f tx rest maxID
    else rowLoop f (markProcessed tx e.id) rest e.id

/-- One iteration of the `pollForPriorityChanges` loop, as its effect on the
durable state.  Begin/read/query failures abandon the cycle before any
mutation; a missing `polling_state` row is a scan error; the watermark is
written only when `maxID > lastID`; a commit failure discards the whole
transaction. -/
def pollCycle (f : CycleFaults) (s : DBState) : DBState :=
  if f.beginFail then s
  else
    match s.pollingRow with
    | none => s
    | some lastID =>
      if f.readWatermarkFail then s
      else if f.queryFail then s
      else
        let r := rowLoop f s (selectedEvents s lastID) 0
        let tx2 :=
          if lastID < r.2 then
            if f.watermarkUpdateFail then r.1
            else { r.1 with pollingRow := some r.2 }
          else r.1
        if f.commitFail then s else tx2

/-- A sequence of poller cycles with per-cycle fault injection. -/
def runCycles (fs : List CycleFaults) (s : DBState) : DBState :=
  fs.foldl (fun t f => pollCycle f t) s

/-- Stored watermark, read as the poller reads it (`0` standing in when the
row is absent — only used for states where the row exists). -/
def watermark (s : DBState) : Nat := s.pollingRow.getD 0

/-- Some event row with id `i` exists. -/
def hasEvent (s : DBState) (i : Nat) : Bool :=
  s.priorityChanges.any (fun e => e.id == i)

/-- Some event row with id `i` exists and is processed. -/
def processedTrue (s : DBState) (i : Nat) : Bool :=
  s.priorityChanges.any (fun e => e.id == i && e.processed)

/-- Ids of the rows the loop successfully marks (neither scan nor update
failure). -/
def successIds (f : CycleFaults) (rows : List PriorityChangeEvent) : List Nat :=
  (rows.filter (fun e => !f.scanFail e.id && !f.updateFail e.id)).map
    (fun e => e.id)

/-- Mark a list of ids processed, in order. -/
def markAll (tx : DBState) (ids : List Nat) : DBState :=
  ids.foldl markProcessed tx

/-- The operations of the system that touch the durable state. -/
inductive SysOp where
  | initOp : SysOp
  | createOp (customerName productName : String) (quantity : Nat)
      (shippingAddress priority : String) : SysOp
  | escalateOp (f : EscalateFaults) (orderID : Nat) : SysOp
  | pollOp (f : CycleFaults) : SysOp

/-- Durable effect of one system operation (a failed escalation leaves the
state unchanged after rollback). -/
def applyOp (op : SysOp) (s : DBState) : DBState :=
  match op with
  | .initOp => initDB s
  | .createOp c p q a pr => (createOrder s c p q a pr).1
  | .escalateOp f oid =>
    match escalateOrderPriority f s oid with
    | .error _ => s
    | .ok s' => s'
  | .pollOp f => pollCycle f s

/-- The watermark invariant of the specification: every event at or below
the stored watermark whose referenced order matches the filter is processed. -/
def watermarkInvariant (s : DBState) : Prop :=
  ∀ e ∈ s.priorityChanges,
    matchesFilter s e = true → e.id ≤ watermark s → e.processed = true

instance (s : DBState) : Decidable (watermarkInvariant s) := by
  unfold watermarkInvariant; infer_instance

/-- Event ids are pairwise distinct (`id INTEGER PRIMARY KEY AUTOINCREMENT`). -/
def eventIdsNodup (s : DBState) : Prop :=
  (s.priorityChanges.map (fun e => e.id)).Nodup

instance (s : DBState) : Decidable (eventIdsNodup s) := by
  unfold eventIdsNodup; infer_instance

/-! Concrete states and fault patterns used by the scenario theorems,
counterexamples and witnesses below. -/

/-- A fresh store before any table exists. -/
def emptyState : DBState :=
  ⟨false, false, false, [], [], none⟩

/-- Scenario A after `initDB` and `CreateOrder("alice", "ninja", 1, "addr", "normal")`. -/
def scenarioAOrderState : DBState :=
  (createOrder (initDB emptyState) "alice" "ninja" 1 "addr" "normal").1

/-- Scenario A after the escalation of order 1: priority high, one pending
event, watermark 0. -/
def scenarioAEscalated : DBState :=
  ⟨true, true, true,
   [⟨1, "alice", "ninja", 1, "addr", "high"⟩],
   [⟨1, 1, "high", false⟩], some 0⟩

/-- Scenario A after one fault-free poller cycle. -/
def scenarioAFinal : DBState :=
  ⟨true, true, true,
   [⟨1, "alice", "ninja", 1, "addr", "high"⟩],
   [⟨1, 1, "high", true⟩], some 1⟩

/-- Initialized store with no orders at all. -/
def noOrderState : DBState :=
  ⟨true, true, true, [], [], some 0⟩

/-- One ninja order with two pending events (ids 1 and 2), watermark 0. -/
def twoEventState : DBState :=
  ⟨true, true, true,
   [⟨1, "alice", "ninja", 1, "addr", "high"⟩],
   [⟨1, 1, "high", false⟩, ⟨2, 1, "high", false⟩], some 0⟩

/-- One ninja order with a single pending event (id 1), watermark 0. -/
def oneEventState : DBState :=
  ⟨true, true, true,
   [⟨1, "alice", "ninja", 1, "addr", "high"⟩],
   [⟨1, 1, "high", false⟩], some 0⟩

/-- Boundary case of the filter claims: a non-matching widget order 1 with
event 1, and a matching ninja order 2 with event 2, watermark 0. -/
def boundaryState : DBState :=
  ⟨true, true, true,
   [⟨1, "bob", "widget", 1, "addr", "high"⟩,
    ⟨2, "alice", "ninja", 1, "addr", "high"⟩],
   [⟨1, 1, "high", false⟩, ⟨2, 2, "high", false⟩], some 0⟩

/-- Cycle whose row scan fails exactly on event id 1. -/
def scanFailOn1 : CycleFaults :=
  { scanFail := fun i => i == 1 }

/-- Cycle whose watermark update fails. -/
def wmFailCycle : CycleFaults :=
  { watermarkUpdateFail := true }

/-- Cycle whose transaction begin fails. -/
def beginFailCycle : CycleFaults :=
  { beginFail := true }

/-! Helper lemmas about the embedded operations. -/

theorem markProcessed_orders (s : DBState) (i : Nat) :
    (markProcessed s i).orders = s.orders := rfl

theorem markProcessed_pollingRow (s : DBState) (i : Nat) :
    (markProcessed s i).pollingRow = s.pollingRow := rfl

theorem markAll_orders (tx : DBState) (ids : List Nat) :
    (markAll tx ids).orders = tx.orders := by
  induction ids generalizing tx with
  | nil => rfl
  | cons a l ih => exact ih (markProcessed tx a)

theorem markAll_pollingRow (tx : DBState) (ids : List Nat) :
    (markAll tx ids).pollingRow = tx.pollingRow := by
  induction ids generalizing tx with
  | nil => rfl
  | cons a l ih => exact ih (markProcessed tx a)

theorem successIds_cons_skip (f : CycleFaults) (e : PriorityChangeEvent)
    (rest : List PriorityChangeEvent)
    (h : f.scanFail e.id = true ∨ f.updateFail e.id = true) :
    successIds f (e :: rest) = successIds f rest := by
  rcases h with h | h <;> simp [successIds, List.filter_cons, h]

theorem successIds_cons_ok (f : CycleFaults) (e : PriorityChangeEvent)
    (rest : List PriorityChangeEvent)
    (hs : f.scanFail e.id = false) (hu : f.updateFail e.id = false) :
    successIds f (e :: rest) = e.id :: successIds f rest := by
  simp [successIds, List.filter_cons, hs, hu]

/-- The row loop is exactly: mark every non-failing row, and report the id of
the last successfully marked row (or the incoming `maxID` when none). -/
theorem rowLoop_eq (f : CycleFaults) (tx : DBState)
    (rows : List PriorityChangeEvent) (m : Nat) :
    rowLoop f tx rows m =
      (markAll tx (successIds f rows), (successIds f rows).getLastD m) := by
  induction rows generalizing tx m with
  | nil => rfl
  | cons e rest ih =>
      by_cases hs : f.scanFail e.id
      · rw [successIds_cons_skip f e rest (Or.inl hs)]
        simp [rowLoop, hs, ih]
      · by_cases hu : f.updateFail e.id
        · rw [successIds_cons_skip f e rest (Or.inr hu)]
          simp [rowLoop, hs, hu, ih]
        · have hs' : f.scanFail e.id = false := by simpa using hs
          have hu' : f.updateFail e.id = false := by simpa using hu
          rw [successIds_cons_ok f e rest hs' hu', List.getLastD_cons]
          simp only [rowLoop, hs', hu', Bool.false_eq_true, if_false]
          rw [ih]
          rfl

/-- Marking a list of ids is the pointwise map that sets `processed` on the
events whose id is in the list. -/
theorem markAll_priorityChanges (tx : DBState) (ids : List Nat) :
    (markAll tx ids).priorityChanges =
      tx.priorityChanges.map (fun e =>
        if e.id ∈ ids then { e with processed := true } else e) := by
  induction ids generalizing tx with
  | nil => simp [markAll]
  | cons a l ih =>
      have hstep : markAll tx (a :: l) = markAll (markProcessed tx a) l := rfl
      have hm : (markProcessed tx a).priorityChanges =
          tx.priorityChanges.map (fun e =>
            if e.id == a then { e with processed := true } else e) := rfl
      rw [hstep, ih, hm, List.map_map]
      have hfun : ((fun e : PriorityChangeEvent =>
            if e.id ∈ l then { e with processed := true } else e) ∘
          (fun e : PriorityChangeEvent =>
            if e.id == a then { e with processed := true } else e)) =
          (fun e : PriorityChangeEvent =>
            if e.id ∈ a :: l then { e with processed := true } else e) := by
        funext e
        by_cases h : e.id = a
        · simp [Function.comp, h]
        · by_cases h2 : e.id ∈ l <;> simp [Function.comp, h, h2]
      rw [hfun]

theorem processedTrue_iff (s : DBState) (i : Nat) :
    processedTrue s i = true ↔
      ∃ e ∈ s.priorityChanges, e.id = i ∧ e.processed = true := by
  simp [processedTrue, List.any_eq_true]

theorem hasEvent_iff (s : DBState) (i : Nat) :
    hasEvent s i = true ↔ ∃ e ∈ s.priorityChanges, e.id = i := by
  simp [hasEvent, List.any_eq_true]

theorem any_congr_on {α : Type} (l : List α) (p q : α → Bool)
    (h : ∀ a ∈ l, p a = q a) : l.any p = l.any q := by
  induction l with
  | nil => rfl
  | cons a t ih =>
      simp only [List.any_cons]
      rw [h a (by simp), ih (fun b hb => h b (by simp [hb]))]

theorem processedTrue_markAll_of_not_mem (tx : DBState) (l : List Nat) (i : Nat)
    (hi : i ∉ l) : processedTrue (markAll tx l) i = processedTrue tx i := by
  unfold processedTrue
  rw [markAll_priorityChanges, List.any_map]
  refine any_congr_on _ _ _ (fun e he => ?_)
  by_cases hmem : e.id ∈ l
  · have hne : ¬ e.id = i := fun h => hi (h ▸ hmem)
    simp [Function.comp, hmem, hne]
  · simp [Function.comp, hmem]

theorem processedTrue_markAll_of_mem (tx : DBState) (l : List Nat) (i : Nat)
    (hi : i ∈ l) (he : hasEvent tx i = true) :
    processedTrue (markAll tx l) i = true := by
  rcases (hasEvent_iff tx i).1 he with ⟨e, hmem, hid⟩
  refine (processedTrue_iff _ _).2
    ⟨{ e with processed := true }, ?_, by simpa using hid, rfl⟩
  rw [markAll_priorityChanges]
  have : ({ e with processed := true } : PriorityChangeEvent) =
      (fun e : PriorityChangeEvent =>
        if e.id ∈ l then { e with processed := true } else e) e := by
    simp [hid ▸ hi]
  rw [this]
  exact List.mem_map_of_mem _ hmem

theorem processedTrue_markAll_mono (tx : DBState) (l : List Nat) (i : Nat)
    (h : processedTrue tx i = true) :
    processedTrue (markAll tx l) i = true := by
  rcases (processedTrue_iff tx i).1 h with ⟨e, hmem, hid, hpr⟩
  refine (processedTrue_iff _ _).2
    ⟨if e.id ∈ l then { e with processed := true } else e, ?_, ?_, ?_⟩
  · rw [markAll_priorityChanges]
    exact List.mem_map_of_mem _ hmem
  · by_cases hmem2 : e.id ∈ l
    · rw [if_pos hmem2]
      simpa using hid
    · rw [if_neg hmem2]
      exact hid
  · by_cases hmem2 : e.id ∈ l
    · rw [if_pos hmem2]
    · rw [if_neg hmem2]
      exact hpr

theorem processedTrue_eq_false_of_nodup (s : DBState) (e : PriorityChangeEvent)
    (hn : eventIdsNodup s) (hmem : e ∈ s.priorityChanges)
    (hp : e.processed = false) : processedTrue s e.id = false := by
  have hn' : (s.priorityChanges.map (fun e => e.id)).Nodup := hn
  cases hb : processedTrue s e.id with
  | false => rfl
  | true =>
      rcases (processedTrue_iff s e.id).1 hb with ⟨e', hmem', hid', hpr'⟩
      have heq : e' = e := List.inj_on_of_nodup_map hn' hmem' hmem hid'
      rw [heq, hp] at hpr'
      exact absurd hpr' (by simp)

theorem processedTrue_congr (s t : DBState) (i : Nat)
    (h : s.priorityChanges = t.priorityChanges) :
    processedTrue s i = processedTrue t i := by
  unfold processedTrue
  rw [h]

theorem mem_selectedEvents (s : DBState) (lastID : Nat)
    (e : PriorityChangeEvent) :
    e ∈ selectedEvents s lastID ↔
      e ∈ s.priorityChanges ∧ matchesFilter s e = true ∧ lastID < e.id ∧
        e.processed = false := by
  unfold selectedEvents
  rw [List.mem_insertionSort, List.mem_filter]
  simp [Bool.and_eq_true, Bool.not_eq_true', and_assoc]

theorem selectedEvents_sorted (s : DBState) (lastID : Nat) :
    (selectedEvents s lastID).Pairwise eventLE :=
  List.sorted_insertionSort eventLE _

theorem successIds_pairwise (f : CycleFaults)
    (rows : List PriorityChangeEvent) (h : rows.Pairwise eventLE) :
    (successIds f rows).Pairwise (· ≤ ·) := by
  unfold successIds
  rw [List.pairwise_map]
  exact h.filter _

theorem mem_successIds (f : CycleFaults) (rows : List PriorityChangeEvent)
    (i : Nat) :
    i ∈ successIds f rows ↔
      ∃ e ∈ rows, e.id = i ∧ f.scanFail e.id = false ∧
        f.updateFail e.id = false := by
  unfold successIds
  simp only [List.mem_map, List.mem_filter, Bool.and_eq_true,
    Bool.not_eq_true']
  tauto

theorem getLastD_mem_or_eq (l : List Nat) (d : Nat) :
    l.getLastD d = d ∨ l.getLastD d ∈ l := by
  induction l generalizing d with
  | nil => exact Or.inl rfl
  | cons a t ih =>
      rw [List.getLastD_cons]
      rcases ih a with h | h
      · exact Or.inr (by rw [h]; exact List.mem_cons_self a t)
      · exact Or.inr (List.mem_cons_of_mem a h)

theorem le_getLastD_of_pairwise (l : List Nat) (d : Nat)
    (h : l.Pairwise (· ≤ ·)) : ∀ i ∈ l, i ≤ l.getLastD d := by
  induction l generalizing d with
  | nil => intro i hi; cases hi
  | cons a t ih =>
      intro i hi
      rw [List.getLastD_cons]
      rcases List.mem_cons.1 hi with rfl | hit
      · rcases getLastD_mem_or_eq t i with he | hm
        · rw [he]
        · exact (List.pairwise_cons.1 h).1 _ hm
      · exact ih a (List.pairwise_cons.1 h).2 i hit

/-- A transaction-begin failure abandons the cycle before any mutation. -/
theorem pollCycle_of_beginFail (f : CycleFaults) (s : DBState)
    (h : f.beginFail = true) : pollCycle f s = s := by
  simp [pollCycle, h]

/-- A missing `polling_state` row is a scan error; the cycle is abandoned. -/
theorem pollCycle_of_noRow (f : CycleFaults) (s : DBState)
    (h : s.pollingRow = none) : pollCycle f s = s := by
  unfold pollCycle
  rw [h]
  simp

/-- A watermark-read failure abandons the cycle before any mutation. -/
theorem pollCycle_of_readFail (f : CycleFaults) (s : DBState)
    (h : f.readWatermarkFail = true) : pollCycle f s = s := by
  unfold pollCycle
  cases hrow : s.pollingRow <;> simp [h]

/-- An event-query failure abandons the cycle before any mutation. -/
theorem pollCycle_of_queryFail (f : CycleFaults) (s : DBState)
    (h : f.queryFail = true) : pollCycle f s = s := by
  unfold pollCycle
  cases hrow : s.pollingRow <;> simp [h]

/-- A commit failure discards every mutation of the cycle. -/
theorem pollCycle_of_commitFail (f : CycleFaults) (s : DBState)
    (h : f.commitFail = true) : pollCycle f s = s := by
  unfold pollCycle
  cases hrow : s.pollingRow <;> simp [h]

/-- Exact durable effect of a cycle whose begin, watermark read, query and
commit all succeed. -/
theorem pollCycle_committed (f : CycleFaults) (s : DBState) (W : Nat)
    (hrow : s.pollingRow = some W) (hb : f.beginFail = false)
    (hr : f.readWatermarkFail = false) (hq : f.queryFail = false)
    (hc : f.commitFail = false) :
    pollCycle f s =
      (if W < (successIds f (selectedEvents s W)).getLastD 0 then
        (if f.watermarkUpdateFail = true then
          markAll s (successIds f (selectedEvents s W))
         else
          { markAll s (successIds f (selectedEvents s W)) with
            pollingRow := some ((successIds f (selectedEvents s W)).getLastD 0) })
       else markAll s (successIds f (selectedEvents s W))) := by
  unfold pollCycle
  rw [hrow]
  simp only [hb, hr, hq, hc, Bool.false_eq_true, if_false, rowLoop_eq]

/-- Every cycle either leaves the durable state unchanged, or commits: the
events become the marked events, the orders are untouched, and the watermark
either stays or moves up to the last successfully marked id. -/
theorem pollCycle_shape (f : CycleFaults) (s : DBState) :
    pollCycle f s = s ∨
    ∃ W, s.pollingRow = some W ∧
      (pollCycle f s).priorityChanges =
        (markAll s (successIds f (selectedEvents s W))).priorityChanges ∧
      (pollCycle f s).orders = s.orders ∧
      ((pollCycle f s).pollingRow = some W ∨
        ((pollCycle f s).pollingRow =
            some ((successIds f (selectedEvents s W)).getLastD 0) ∧
          W < (successIds f (selectedEvents s W)).getLastD 0)) := by
  cases hb : f.beginFail with
  | true => exact Or.inl (pollCycle_of_beginFail f s hb)
  | false =>
  cases hrow : s.pollingRow with
  | none => exact Or.inl (pollCycle_of_noRow f s hrow)
  | some W =>
  cases hr : f.readWatermarkFail with
  | true => exact Or.inl (pollCycle_of_readFail f s hr)
  | false =>
  cases hq : f.queryFail with
  | true => exact Or.inl (pollCycle_of_queryFail f s hq)
  | false =>
  cases hc : f.commitFail with
  | true => exact Or.inl (pollCycle_of_commitFail f s hc)
  | false =>
  refine Or.inr ⟨W, rfl, ?_⟩
  rw [pollCycle_committed f s W hrow hb hr hq hc]
  by_cases hlt : W < (successIds f (selectedEvents s W)).getLastD 0
  · rw [if_pos hlt]
    cases hw : f.watermarkUpdateFail with
    | true =>
        rw [if_pos rfl]
        refine ⟨rfl, markAll_orders s _, Or.inl ?_⟩
        rw [markAll_pollingRow]
        exact hrow
    | false =>
        rw [if_neg (by simp)]
        exact ⟨rfl, markAll_orders s _, Or.inr ⟨rfl, hlt⟩⟩
  · rw [if_neg hlt]
    refine ⟨rfl, markAll_orders s _, Or.inl ?_⟩
    rw [markAll_pollingRow]
    exact hrow

/-- No cycle ever mutates the `orders` table. -/
theorem pollCycle_orders (f : CycleFaults) (s : DBState) :
    (pollCycle f s).orders = s.orders := by
  rcases pollCycle_shape f s with h | ⟨W, _, _, h, _⟩
  · rw [h]
  · exact h

/-- The filter match depends only on the order table and the event's
`orderId`. -/
theorem matchesFilter_congr (s t : DBState) (e e' : PriorityChangeEvent)
    (ho : s.orders = t.orders) (hid : e.orderId = e'.orderId) :
    matchesFilter s e = matchesFilter t e' := by
  unfold matchesFilter
  rw [ho, hid]

/-- Fields of an event through the marking map: id, order id and priority
are untouched; `processed` only ever moves to `true`. -/
theorem mark_image_fields (l : List Nat) (e : PriorityChangeEvent) :
    ((if e.id ∈ l then { e with processed := true } else e) :
        PriorityChangeEvent).id = e.id ∧
    (if e.id ∈ l then { e with processed := true } else e).orderId =
      e.orderId ∧
    (e.processed = true →
      (if e.id ∈ l then { e with processed := true } else e).processed =
        true) ∧
    (e.id ∈ l →
      (if e.id ∈ l then { e with processed := true } else e).processed =
        true) ∧
    (e.id ∉ l →
      (if e.id ∈ l then { e with processed := true } else e) = e) := by
  by_cases hin : e.id ∈ l <;> simp [hin]

/-- An id that the cycle does not successfully mark keeps its processed
flag. -/
theorem pollCycle_processedTrue_of_not_success (f : CycleFaults)
    (s : DBState) (i : Nat)
    (hi : ∀ W, s.pollingRow = some W →
      i ∉ successIds f (selectedEvents s W)) :
    processedTrue (pollCycle f s) i = processedTrue s i := by
  rcases pollCycle_shape f s with h | ⟨W, hW, hpc, _, _⟩
  · rw [h]
  · calc processedTrue (pollCycle f s) i
        = processedTrue (markAll s (successIds f (selectedEvents s W))) i :=
          processedTrue_congr _ _ _ hpc
      _ = processedTrue s i :=
          processedTrue_markAll_of_not_mem _ _ _ (hi W hW)

/-- Ids below the stored watermark are never successfully marked: the query
only returns rows with strictly larger ids. -/
theorem not_success_of_le_watermark (f : CycleFaults) (s : DBState)
    (W i : Nat) (hle : i ≤ W) :
    i ∉ successIds f (selectedEvents s W) := by
  intro hmem
  rcases (mem_successIds f _ i).1 hmem with ⟨e, hsel, hid, _, _⟩
  have := ((mem_selectedEvents s W e).1 hsel).2.2.1
  rw [hid] at this
  exact absurd hle (Nat.not_le_of_lt this)

/-- A successful escalation produces exactly the combined update: priority
set high and one pending event appended. -/
theorem escalateOrderPriority_ok (f : EscalateFaults) (s : DBState)
    (oid : Nat) (s' : DBState)
    (h : escalateOrderPriority f s oid = .ok s') :
    s' = insertPriorityChange (setPriorityHigh s oid) oid := by
  simp only [escalateOrderPriority] at h
  split_ifs at h
  injection h with h2
  exact h2.symm

/-! Claim theorems. -/

/-- C2 counterexample: a cycle whose watermark update fails is not aborted —
the processed flags it set still become durable while the watermark stays,
so the claim that any step failure leaves no durable mutation is false. -/
theorem watermark_update_failure_still_commits :
    processedTrue twoEventState 1 = false ∧
    processedTrue (pollCycle wmFailCycle twoEventState) 1 = true ∧
    processedTrue (pollCycle wmFailCycle twoEventState) 2 = true ∧
    (pollCycle wmFailCycle twoEventState).pollingRow = some 0 := by
  decide

/-- C2 amended: failures of transaction begin, watermark read, event query
or commit leave the durable state unchanged (and a missing watermark row
behaves like a read failure); a watermark-update failure leaves the stored
watermark unchanged but does not abort the cycle, whose other mutations
still commit; the poller survives every such cycle and proceeds. -/
theorem cycle_failure_handling (f : CycleFaults) (s : DBState) :
    (f.beginFail = true → pollCycle f s = s) ∧
    (s.pollingRow = none → pollCycle f s = s) ∧
    (f.readWatermarkFail = true → pollCycle f s = s) ∧
    (f.queryFail = true → pollCycle f s = s) ∧
    (f.commitFail = true → pollCycle f s = s) ∧
    (f.watermarkUpdateFail = true →
      (pollCycle f s).pollingRow = s.pollingRow) := by
  refine ⟨pollCycle_of_beginFail f s, pollCycle_of_noRow f s,
    pollCycle_of_readFail f s, pollCycle_of_queryFail f s,
    pollCycle_of_commitFail f s, ?_⟩
  intro hw
  cases hb : f.beginFail with
  | true => rw [pollCycle_of_beginFail f s hb]
  | false =>
  cases hrow : s.pollingRow with
  | none => rw [pollCycle_of_noRow f s hrow]; exact hrow
  | some W =>
  cases hr : f.readWatermarkFail with
  | true => rw [pollCycle_of_readFail f s hr]; exact hrow
  | false =>
  cases hq : f.queryFail with
  | true => rw [pollCycle_of_queryFail f s hq]; exact hrow
  | false =>
  cases hc : f.commitFail with
  | true => rw [pollCycle_of_commitFail f s hc]; exact hrow
  | false =>
  rw [pollCycle_committed f s W hrow hb hr hq hc]
  by_cases hlt : W < (successIds f (selectedEvents s W)).getLastD 0
  · rw [if_pos hlt, if_pos hw, markAll_pollingRow]
    exact hrow
  · rw [if_neg hlt, markAll_pollingRow]
    exact hrow

/-- Witness for C2's amended theorem: a begin failure on a concrete store
changes nothing. -/
theorem cycle_failure_handling_witness :
    pollCycle beginFailCycle twoEventState = twoEventState :=
  (cycle_failure_handling beginFailCycle twoEventState).1 rfl

/-- C3: across every cycle, and every sequence of cycles, the stored
watermark is non-decreasing; a cycle that selects no events leaves it
unchanged. -/
theorem watermark_monotone :
    (∀ f s W, s.pollingRow = some W →
      ∃ M, (pollCycle f s).pollingRow = some M ∧ W ≤ M) ∧
    (∀ f s W, s.pollingRow = some W → selectedEvents s W = [] →
      (pollCycle f s).pollingRow = some W) ∧
    (∀ fs s W, s.pollingRow = some W →
      ∃ M, (runCycles fs s).pollingRow = some M ∧ W ≤ M) := by
  have h1 : ∀ f s W, s.pollingRow = some W →
      ∃ M, (pollCycle f s).pollingRow = some M ∧ W ≤ M := by
    intro f s W hrow
    rcases pollCycle_shape f s with h | ⟨W', hW', _, _, hor⟩
    · exact ⟨W, by rw [h]; exact hrow, Nat.le_refl W⟩
    · have hWW : W' = W := Option.some.inj (hW'.symm.trans hrow)
      subst hWW
      rcases hor with h | ⟨h, hlt⟩
      · exact ⟨W', h, Nat.le_refl W'⟩
      · exact ⟨_, h, Nat.le_of_lt hlt⟩
  refine ⟨h1, ?_, ?_⟩
  · intro f s W hrow hempty
    rcases pollCycle_shape f s with h | ⟨W', hW', _, _, hor⟩
    · rw [h]; exact hrow
    · have hWW : W' = W := Option.some.inj (hW'.symm.trans hrow)
      subst hWW
      rcases hor with h | ⟨h, hlt⟩
      · exact h
      · rw [hempty] at hlt
        exact absurd hlt (by simp [successIds])
  · intro fs
    induction fs with
    | nil => exact fun s W hrow => ⟨W, hrow, Nat.le_refl W⟩
    | cons f rest ih =>
        intro s W hrow
        rcases h1 f s W hrow with ⟨M1, hM1, hle1⟩
        rcases ih (pollCycle f s) M1 hM1 with ⟨M, hM, hle2⟩
        exact ⟨M, hM, Nat.le_trans hle1 hle2⟩

/-- Witness for C3 at a concrete store and fault sequence. -/
theorem watermark_monotone_witness :
    ∃ M, (runCycles [scanFailOn1, noCycleFaults] twoEventState).pollingRow =
      some M ∧ 0 ≤ M :=
  watermark_monotone.2.2 [scanFailOn1, noCycleFaults] twoEventState 0 rfl

/-- C6: the escalation is all-or-nothing: it either fails with no durable
mutation, or commits exactly the priority update to high together with one
appended pending event row for the order. -/
theorem escalate_atomic (f : EscalateFaults) (s : DBState) (oid : Nat) :
    (escalateOrderPriority f s oid = .error () ∨
      escalateOrderPriority f s oid =
        .ok (insertPriorityChange (setPriorityHigh s oid) oid)) ∧
    (∀ s', escalateOrderPriority f s oid = .ok s' →
      s'.orders = s.orders.map (fun o =>
        if o.id == oid then { o with priority := "high" } else o) ∧
      s'.priorityChanges = s.priorityChanges ++
        [{ id := nextEventId s, orderId := oid, priority := "high",
           processed := false }]) := by
  constructor
  · simp only [escalateOrderPriority]
    split_ifs <;> simp
  · intro s' h
    have hs' := escalateOrderPriority_ok f s oid s' h
    subst hs'
    exact ⟨rfl, rfl⟩

/-- Witness for C6: the committed escalation of Scenario A contains both the
priority update and the appended event. -/
theorem escalate_atomic_witness :
    scenarioAEscalated.orders = scenarioAOrderState.orders.map (fun o =>
      if o.id == 1 then { o with priority := "high" } else o) ∧
    scenarioAEscalated.priorityChanges =
      scenarioAOrderState.priorityChanges ++
        [{ id := nextEventId scenarioAOrderState, orderId := 1,
           priority := "high", processed := false }] :=
  (escalate_atomic noEscalateFaults scenarioAOrderState 1).2
    scenarioAEscalated rfl

/-- C7: escalating the nonexistent order id 7 on a store with no orders
reports success and durably inserts an event row referencing the missing
order — the driver never enables SQLite foreign-key enforcement and the
handler never checks rows-affected, contradicting both the claim and the
`FOREIGN KEY(order_id)` declaration of the schema. -/
theorem escalate_nonexistent_order_succeeds :
    noOrderState.orders = [] ∧
    escalateOrderPriority noEscalateFaults noOrderState 7 =
      .ok ⟨true, true, true, [], [⟨1, 7, "high", false⟩], some 0⟩ :=
  ⟨rfl, rfl⟩

/-- C8 (Scenario A): after creating a ninja order and escalating it, one
fault-free poller cycle marks the event processed, sets the watermark to the
event's id, and the order's priority is high. -/
theorem scenarioA_one_cycle :
    escalateOrderPriority noEscalateFaults scenarioAOrderState 1 =
      .ok scenarioAEscalated ∧
    pollCycle noCycleFaults scenarioAEscalated = scenarioAFinal ∧
    processedTrue scenarioAFinal 1 = true ∧
    scenarioAFinal.pollingRow = some 1 ∧
    scenarioAFinal.orders = [⟨1, "alice", "ninja", 1, "addr", "high"⟩] :=
  ⟨rfl, by decide, rfl, rfl, rfl⟩

/-- C10: `initDB` never touches order or event rows and inserts the
watermark row only when absent, so on an initialized store it is the
identity — a restart never resets the watermark. -/
theorem initDB_idempotent (s : DBState) (w : Nat) :
    (initDB s).orders = s.orders ∧
    (initDB s).priorityChanges = s.priorityChanges ∧
    (s.pollingRow = some w → (initDB s).pollingRow = some w) ∧
    (s.pollingRow = none → (initDB s).pollingRow = some 0) ∧
    (s.ordersTableExists = true → s.priorityChangesTableExists = true →
      s.pollingStateTableExists = true → s.pollingRow = some w →
      initDB s = s) := by
  refine ⟨rfl, rfl, ?_, ?_, ?_⟩
  · intro h
    simp [initDB, h]
  · intro h
    simp [initDB, h]
  · intro h1 h2 h3 h4
    rcases s with ⟨t1, t2, t3, os, pc, pr⟩
    dsimp only at h1 h2 h3 h4
    subst h1
    subst h2
    subst h3
    subst h4
    simp [initDB]

/-- Witness for C10 on a concrete initialized store. -/
theorem initDB_idempotent_witness :
    initDB scenarioAFinal = scenarioAFinal :=
  (initDB_idempotent scenarioAFinal 1).2.2.2.2 rfl rfl rfl rfl

/-- C1 counterexample: from a state satisfying the watermark invariant, a
committed cycle in which the scan of matching event 1 fails while matching
event 2 succeeds advances the watermark to 2 and leaves event 1
unprocessed — the invariant does not hold after every committed cycle. -/
theorem watermark_invariant_broken_by_scan_skip :
    watermarkInvariant twoEventState ∧
    ¬ watermarkInvariant (pollCycle scanFailOn1 twoEventState) := by
  constructor
  · decide
  · decide

/-- C1 amended: every cycle only reads and marks events with ids strictly
above the stored watermark (flags at or below it are untouched and such ids
are never selected), and a fault-free committed cycle preserves the
watermark invariant; a cycle with a row-level scan or update failure can
break it, as the counterexample shows. -/
theorem watermark_cutoff_and_invariant :
    (∀ f s W i, s.pollingRow = some W → i ≤ W →
      processedTrue (pollCycle f s) i = processedTrue s i) ∧
    (∀ s W e, e ∈ selectedEvents s W → W < e.id) ∧
    (∀ s, watermarkInvariant s →
      watermarkInvariant (pollCycle noCycleFaults s)) := by
  refine ⟨?_, ?_, ?_⟩
  · intro f s W i hrow hle
    refine pollCycle_processedTrue_of_not_success f s i (fun W' hW' => ?_)
    obtain rfl : W' = W := Option.some.inj (hW'.symm.trans hrow)
    exact not_success_of_le_watermark f s W' i hle
  · intro s W e hmem
    exact ((mem_selectedEvents s W e).1 hmem).2.2.1
  · intro s hinv
    rcases pollCycle_shape noCycleFaults s with h | ⟨W, hrow, hpc, ho, _⟩
    · rw [h]
      exact hinv
    · intro e' he' hmatch hle
      have hpc' : (pollCycle noCycleFaults s).priorityChanges =
          s.priorityChanges.map (fun e =>
            if e.id ∈ successIds noCycleFaults (selectedEvents s W) then
              { e with processed := true } else e) := by
        rw [hpc, markAll_priorityChanges]
      rw [hpc'] at he'
      rcases List.mem_map.1 he' with ⟨e, hmem, hge⟩
      have hfields := mark_image_fields
        (successIds noCycleFaults (selectedEvents s W)) e
      have horder : e.orderId = e'.orderId := by
        rw [← hge]
        exact hfields.2.1.symm
      have hmatch_e : matchesFilter s e = true :=
        (matchesFilter_congr s (pollCycle noCycleFaults s) e e'
          ho.symm horder).trans hmatch
      rw [← hge]
      cases hp : e.processed with
      | true => exact hfields.2.2.1 hp
      | false =>
          by_cases hgt : W < e.id
          · have hsel : e ∈ selectedEvents s W :=
              (mem_selectedEvents s W e).2 ⟨hmem, hmatch_e, hgt, hp⟩
            have hid : e.id ∈ successIds noCycleFaults (selectedEvents s W) :=
              (mem_successIds _ _ _).2 ⟨e, hsel, rfl, rfl, rfl⟩
            exact hfields.2.2.2.1 hid
          · have hle2 : e.id ≤ watermark s := by
              unfold watermark
              rw [hrow]
              exact Nat.le_of_not_lt hgt
            have hcontra := hinv e hmem hmatch_e hle2
            rw [hp] at hcontra
            exact absurd hcontra (by simp)

/-- Witness for C1's amended theorem: the invariant holds after a fault-free
cycle on the Scenario A state. -/
theorem watermark_cutoff_and_invariant_witness :
    watermarkInvariant (pollCycle noCycleFaults scenarioAEscalated) :=
  watermark_cutoff_and_invariant.2.2 scenarioAEscalated (by decide)

/-- C4: events whose referenced order does not match the filter keep their
processed flag through every cycle; and whenever a cycle moves the
watermark, it moves it to the maximum id newly marked processed in that
cycle (a newly processed id, above the old watermark, bounding every other
newly processed id). -/
theorem filter_correctness :
    (∀ f s e, eventIdsNodup s → e ∈ s.priorityChanges →
      matchesFilter s e = false →
      processedTrue (pollCycle f s) e.id = processedTrue s e.id) ∧
    (∀ f s W, eventIdsNodup s → s.pollingRow = some W →
      (pollCycle f s).pollingRow = some W ∨
      ∃ M, (pollCycle f s).pollingRow = some M ∧ W < M ∧
        processedTrue (pollCycle f s) M = true ∧
        processedTrue s M = false ∧
        (∀ i, processedTrue (pollCycle f s) i = true →
          processedTrue s i = false → i ≤ M)) := by
  constructor
  · intro f s e hn hmem hmatch
    refine pollCycle_processedTrue_of_not_success f s e.id (fun W hW => ?_)
    intro hin
    rcases (mem_successIds _ _ _).1 hin with ⟨e2, hsel, hid2, _, _⟩
    have h2 := (mem_selectedEvents s W e2).1 hsel
    have hn' : (s.priorityChanges.map (fun e => e.id)).Nodup := hn
    have he2 : e2 = e := List.inj_on_of_nodup_map hn' h2.1 hmem hid2
    rw [he2] at h2
    rw [h2.2.1] at hmatch
    exact absurd hmatch (by simp)
  · intro f s W hn hrow
    rcases pollCycle_shape f s with h | ⟨W', hW', hpc, _, hor⟩
    · rw [h]
      exact Or.inl hrow
    · obtain rfl : W' = W := Option.some.inj (hW'.symm.trans hrow)
      rcases hor with h | ⟨hM, hlt⟩
      · exact Or.inl h
      · have hMmem : (successIds f (selectedEvents s W')).getLastD 0 ∈
            successIds f (selectedEvents s W') := by
          rcases getLastD_mem_or_eq (successIds f (selectedEvents s W')) 0
            with h0 | hm
          · rw [h0] at hlt
            exact absurd hlt (Nat.not_lt_zero W')
          · exact hm
        rcases (mem_successIds _ _ _).1 hMmem with ⟨eM, hselM, hidM, _, _⟩
        have hM2 := (mem_selectedEvents s W' eM).1 hselM
        refine Or.inr ⟨(successIds f (selectedEvents s W')).getLastD 0,
          hM, hlt, ?_, ?_, ?_⟩
        · rw [processedTrue_congr _ _ _ hpc]
          refine processedTrue_markAll_of_mem s _ _ hMmem ?_
          exact (hasEvent_iff s _).2 ⟨eM, hM2.1, hidM⟩
        · rw [← hidM]
          exact processedTrue_eq_false_of_nodup s eM hn hM2.1 hM2.2.2.2
        · intro i hi_new hi_old
          by_cases hin : i ∈ successIds f (selectedEvents s W')
          · exact le_getLastD_of_pairwise _ 0
              (successIds_pairwise f _ (selectedEvents_sorted s W')) i hin
          · rw [processedTrue_congr _ _ _ hpc,
              processedTrue_markAll_of_not_mem s _ i hin] at hi_new
            rw [hi_new] at hi_old
            exact absurd hi_old (by simp)

/-- Witness for C4 on the boundary state: the widget event keeps its flag
while the cycle advances the watermark to the ninja event's id 2. -/
theorem filter_correctness_witness :
    processedTrue (pollCycle noCycleFaults boundaryState) 1 =
      processedTrue boundaryState 1 ∧
    processedTrue boundaryState 1 = false ∧
    (pollCycle noCycleFaults boundaryState).pollingRow = some 2 := by
  refine ⟨?_, by decide, by decide⟩
  exact filter_correctness.1 noCycleFaults boundaryState ⟨1, 1, "high", false⟩
    (by decide) (by decide) (by decide)

/-- C5 counterexample: with matching pending events 1 and 2 and a scan
failure on event 1 only, the committed watermark jumps to 2; event 1 stays
unprocessed, the next cycle selects nothing, and a further fault-free cycle
changes nothing — the skipped row is not retried on the next cycle and is
never processed. -/
theorem scan_skip_not_retried :
    processedTrue (pollCycle scanFailOn1 twoEventState) 1 = false ∧
    (pollCycle scanFailOn1 twoEventState).pollingRow = some 2 ∧
    selectedEvents (pollCycle scanFailOn1 twoEventState) 2 = [] ∧
    pollCycle noCycleFaults (pollCycle scanFailOn1 twoEventState) =
      pollCycle scanFailOn1 twoEventState := by
  decide

/-- C5 amended: a row whose scan fails is skipped for the cycle and keeps
`processed = false`; it is selected again by the next cycle provided the
watermark committed by the failing cycle is still below the row's id — when
a later row of the same cycle succeeds, the watermark can pass the skipped
row, which is then never selected again (see the counterexample). -/
theorem scan_skip_retry (f : CycleFaults) (s : DBState)
    (e : PriorityChangeEvent) (hn : eventIdsNodup s)
    (hmem : e ∈ s.priorityChanges)
    (hmatch : matchesFilter s e = true)
    (hp : e.processed = false) (hsf : f.scanFail e.id = true) :
    processedTrue (pollCycle f s) e.id = false ∧
    ∀ M, (pollCycle f s).pollingRow = some M → M < e.id →
      ∃ e', e' ∈ selectedEvents (pollCycle f s) M ∧ e'.id = e.id ∧
        e'.processed = false := by
  have hnot : ∀ W', s.pollingRow = some W' →
      e.id ∉ successIds f (selectedEvents s W') := by
    intro W' hW' hin
    rcases (mem_successIds _ _ _).1 hin with ⟨e2, hsel, hid2, hsf2, _⟩
    rw [hid2] at hsf2
    rw [hsf2] at hsf
    exact absurd hsf (by simp)
  constructor
  · rw [pollCycle_processedTrue_of_not_success f s e.id hnot]
    exact processedTrue_eq_false_of_nodup s e hn hmem hp
  · intro M hM hMlt
    rcases pollCycle_shape f s with h | ⟨W', hW', hpc, ho, _⟩
    · refine ⟨e, ?_, rfl, hp⟩
      rw [h]
      exact (mem_selectedEvents s M e).2 ⟨hmem, hmatch, hMlt, hp⟩
    · have hpc' : (pollCycle f s).priorityChanges =
          s.priorityChanges.map (fun x =>
            if x.id ∈ successIds f (selectedEvents s W') then
              { x with processed := true } else x) := by
        rw [hpc, markAll_priorityChanges]
      have hge : (if e.id ∈ successIds f (selectedEvents s W') then
          ({ e with processed := true } : PriorityChangeEvent) else e) = e :=
        (mark_image_fields _ e).2.2.2.2 (hnot W' hW')
      refine ⟨e, ?_, rfl, hp⟩
      refine (mem_selectedEvents (pollCycle f s) M e).2 ⟨?_, ?_, hMlt, hp⟩
      · rw [hpc']
        exact hge ▸ List.mem_map_of_mem _ hmem
      · rw [← matchesFilter_congr s (pollCycle f s) e e ho.symm rfl]
        exact hmatch

/-- Witness for C5's amended theorem: a scan failure on the only pending
event leaves the watermark at 0, so the event is selected again by the next
cycle. -/
theorem scan_skip_retry_witness :
    processedTrue (pollCycle scanFailOn1 oneEventState) 1 = false ∧
    ∃ e', e' ∈ selectedEvents (pollCycle scanFailOn1 oneEventState) 0 ∧
      e'.id = 1 ∧ e'.processed = false := by
  have h := scan_skip_retry scanFailOn1 oneEventState
    ⟨1, 1, "high", false⟩ (by decide) (by decide) (by decide) rfl rfl
  exact ⟨h.1, h.2 0 (by decide) (by decide)⟩

/-- C9: the processed flag is monotone across every operation of the
system — once an event is processed, no order creation, escalation, initDB
run or poller cycle ever resets it: `processed` is terminal. -/
theorem processed_terminal (op : SysOp) (s : DBState) (i : Nat)
    (h : processedTrue s i = true) :
    processedTrue (applyOp op s) i = true := by
  cases op with
  | initOp => exact h
  | createOp c p q a pr => exact h
  | escalateOp f oid =>
      cases hesc : escalateOrderPriority f s oid with
      | error u =>
          simp only [applyOp, hesc]
          exact h
      | ok s' =>
          simp only [applyOp, hesc]
          have hs' := escalateOrderPriority_ok f s oid s' hesc
          subst hs'
          rcases (processedTrue_iff s i).1 h with ⟨e, hmem, hid, hpr⟩
          refine (processedTrue_iff _ _).2 ⟨e, ?_, hid, hpr⟩
          exact List.mem_append_left _ hmem
  | pollOp f =>
      rcases pollCycle_shape f s with hsh | ⟨W, hW, hpc, _, _⟩
      · simp only [applyOp]
        rw [hsh]
        exact h
      · simp only [applyOp]
        rw [processedTrue_congr _ _ _ hpc]
        exact processedTrue_markAll_mono s _ i h

/-- Witness for C9: a further fault-free cycle keeps the processed flag of
the Scenario A event. -/
theorem processed_terminal_witness :
    processedTrue (applyOp (SysOp.pollOp noCycleFaults) scenarioAFinal) 1 =
      true :=
  processed_terminal (SysOp.pollOp noCycleFaults) scenarioAFinal 1 (by decide)

end PollingAudit
